import Mathlib

/-!
Shallow embedding of the agent-coordination core of the
Multi-Agent-System-for-Adaptive-Production-Scheduling repository:
`02_scheduler_agent.py`, `03_machine_agent.py`,
`CorePythonImplementation/04_production_line_agent.py` and
`CorePythonImplementation/05_MaintenanceAlertAgent.py`.

Python floats and wall-clock readings are modelled as rationals; every call to
`time.time()` and every `random.*` draw is an explicit parameter of the embedded
operation (the spec itself asks for an injectable clock and seedable randomness).
Message sends performed through an agent reference (`agent.inbox.append(...)`)
are modelled as lists of outgoing messages returned next to the new state.
-/

/-- A well-formed job dict: all fields required by the scheduler and machine
agents are present. -/
structure Job where
  job_id : String
  priority : String
  due_date : ℚ
  processing_time : ℚ
deriving DecidableEq, Repr

/-- A raw job dict as carried in a `new_job` message: each required field may be
missing (Python raises `KeyError` on access of a missing key). -/
structure JobDict where
  job_id : Option String
  priority : Option String
  due_date : Option ℚ
  processing_time : Option ℚ
deriving DecidableEq, Repr

/-- `SchedulerAgent.priority_map` together with the `.get(_, 1)` default used in
`_handle_new_job`. -/
def priority_map : String → Nat
  | "high" => 0
  | "normal" => 1
  | "low" => 2
  | _ => 1

/-- One entry of `SchedulerAgent.job_queue`: the tuple
`(priority_val, -due_date, job)` pushed by `_handle_new_job`. -/
structure QEntry where
  priority_val : Nat
  neg_due : ℚ
  job : Job
deriving DecidableEq, Repr

/-- The order in which Python compares two heap entries: lexicographic on
`(priority_val, neg_due)`.  (On a full key tie Python would fall through to
comparing the job dicts, which raises `TypeError`; the claims only involve
entries with distinct keys.) -/
def entry_le (a b : QEntry) : Bool :=
  if a.priority_val < b.priority_val then true
  else if a.priority_val = b.priority_val then decide (a.neg_due ≤ b.neg_due)
  else false

/-- `heapq.heappush self.job_queue e`: the heap is modelled by the list of
entries it holds (push appends); `pop_min` extracts the heap minimum, which is
the only way the code observes the heap. -/
def heappush (q : List QEntry) (e : QEntry) : List QEntry := q ++ [e]

/-- `heapq.heappop`: remove and return the minimum entry under `entry_le`
(leftmost among equal keys) together with the remaining entries. -/
def pop_min : List QEntry → Option (QEntry × List QEntry)
  | [] => none
  | e :: es =>
    match pop_min es with
    | none => some (e, [])
    | some (m, rest) => if entry_le e m then some (e, es) else some (m, e :: rest)

/-- `_handle_new_job` on a well-formed job dict: compute the priority rank and
push `(priority_val, -due_date, job)` onto the queue. -/
def handle_new_job_wf (q : List QEntry) (j : Job) : List QEntry :=
  heappush q ⟨priority_map j.priority, -j.due_date, j⟩

/-- `_handle_new_job` on the raw message dict, with Python dict-access
semantics: `job['priority']` and `job['due_date']` are read before the push and
raise `KeyError` when missing; `job['job_id']` is only read by the final print
after the push, so a job missing only `job_id` is pushed and the error escapes
afterwards.  The result is the queue after the call together with the escaped
exception, if any. -/
def handle_new_job (q : List (Nat × ℚ × JobDict)) (jd : JobDict) :
    List (Nat × ℚ × JobDict) × Option String :=
  match jd.priority with
  | none => (q, some "KeyError: priority")
  | some p =>
    match jd.due_date with
    | none => (q, some "KeyError: due_date")
    | some d =>
      let q' := q ++ [(priority_map p, -d, jd)]
      match jd.job_id with
      | none => (q', some "KeyError: job_id")
      | some _ => (q', none)

/-- The `new_job` branch of `SchedulerAgent.process_messages`, restricted to an
inbox of `new_job` messages: each is handled in order; the first `KeyError`
aborts the loop and escapes `process_messages` (there is no try/except), while
the queue mutations made up to that point persist. -/
def process_new_jobs (q : List (Nat × ℚ × JobDict)) :
    List JobDict → List (Nat × ℚ × JobDict) × Option String
  | [] => (q, none)
  | jd :: rest =>
    match handle_new_job q jd with
    | (q', none) => process_new_jobs q' rest
    | (q', some e) => (q', some e)

/-- A record of `SchedulerAgent.machines` (the `agent` reference is modelled by
the assignment messages `assign_jobs` returns). -/
structure MachRec where
  status : String
  current_job : Option String
  last_update : ℚ
deriving DecidableEq, Repr

/-- The scheduler state: job queue, machine registry in registration order
(Python dicts preserve insertion order) and the completed-job log. -/
structure SchedState where
  job_queue : List QEntry
  machines : List (String × MachRec)
  completed_jobs : List (String × String × ℚ)
deriving DecidableEq, Repr

/-- `_reschedule_job`: the body only prints ("In a real implementation, you'd
put the job back in the queue / For now, just log the event"); no scheduler
state is changed. -/
def reschedule_job (s : SchedState) (_job_id : Option String) (_reason : String) :
    SchedState := s

/-- Replace the record of `machine_id` in the registry. -/
def set_machine (ms : List (String × MachRec)) (machine_id : String) (r : MachRec) :
    List (String × MachRec) :=
  ms.map fun p => if p.1 = machine_id then (p.1, r) else p

/-- `_handle_status_update`: if the machine is registered, overwrite its status
and `last_update`; when the new status is broken or maintenance while a job is
recorded on the machine, call `_reschedule_job` (which only logs). -/
def handle_status_update (s : SchedState) (machine_id new_status : String) (now : ℚ) :
    SchedState :=
  match s.machines.lookup machine_id with
  | none => s
  | some r =>
    let r1 : MachRec := { r with status := new_status, last_update := now }
    let s1 : SchedState := { s with machines := set_machine s.machines machine_id r1 }
    if (new_status = "broken" ∨ new_status = "maintenance") ∧ r.current_job.isSome then
      reschedule_job s1 r.current_job ("Machine " ++ machine_id ++ " " ++ new_status)
    else s1

/-- `_handle_job_completion`: mark the machine idle, clear its recorded job and
append to the completed-job log. -/
def handle_job_completion (s : SchedState) (machine_id job_id : String) (now : ℚ) :
    SchedState :=
  match s.machines.lookup machine_id with
  | none => s
  | some r =>
    let r1 : MachRec := { r with status := "idle", current_job := none }
    { s with
      machines := set_machine s.machines machine_id r1,
      completed_jobs := s.completed_jobs ++ [(job_id, machine_id, now)] }

/-- `assign_jobs`, iterating the registry in order: for each machine whose
record says idle, while the queue is nonempty, pop the heap minimum, mark the
record busy with that job and send an `assign_job` message to the machine
agent.  Returns the updated registry, the remaining queue and the sent
`(machine_id, job)` assignments in order. -/
def assign_jobs_aux :
    List (String × MachRec) → List QEntry →
    List (String × MachRec) × List QEntry × List (String × Job)
  | [], q => ([], q, [])
  | (mid, r) :: ms, q =>
    if r.status = "idle" then
      match pop_min q with
      | some (e, q') =>
        let r' : MachRec := { r with status := "busy", current_job := some e.job.job_id }
        let (ms', q'', sent) := assign_jobs_aux ms q'
        ((mid, r') :: ms', q'', (mid, e.job) :: sent)
      | none =>
        let (ms', q'', sent) := assign_jobs_aux ms q
        ((mid, r) :: ms', q'', sent)
    else
      let (ms', q'', sent) := assign_jobs_aux ms q
      ((mid, r) :: ms', q'', sent)

/-- `SchedulerAgent.assign_jobs` on the scheduler state. -/
def assign_jobs (s : SchedState) : SchedState × List (String × Job) :=
  let (ms, q, sent) := assign_jobs_aux s.machines s.job_queue
  ({ s with machines := ms, job_queue := q }, sent)

/-- `MachineStatus` from `03_machine_agent.py` (`operational` is declared but
never assigned). -/
inductive MachineStatus where
  | idle
  | busy
  | broken
  | maintenance
  | operational
deriving DecidableEq, Repr

/-- The `.value` string of a status. -/
def MachineStatus.value : MachineStatus → String
  | .idle => "idle"
  | .busy => "busy"
  | .broken => "broken"
  | .maintenance => "maintenance"
  | .operational => "operational"

/-- The mutable state of a `MachineAgent`. -/
structure MachineState where
  machine_id : String
  status : MachineStatus
  current_job : Option Job
  job_start_time : Option ℚ
  job_progress : ℚ
  processing_speed : ℚ
  reliability : ℚ
  maintenance_due_hours : ℚ
  current_operating_hours : ℚ
  jobs_completed : Nat
  total_processing_time : ℚ
  breakdown_count : Nat
  last_maintenance : ℚ
deriving DecidableEq, Repr

/-- Messages a `MachineAgent` appends to the scheduler's or maintenance
agent's inbox. -/
inductive MachineOut where
  | job_interrupted (job_id reason : String) (progress : ℚ)
  | job_done (job_id : String) (completion_time machine_efficiency : ℚ)
  | status_update (status : String) (current_job : Option String)
      (job_progress operating_hours : ℚ) (jobs_completed breakdown_count : Nat)
  | maintenance_alert (alert_type machine_id : String)
      (operating_hours last_maintenance : ℚ) (breakdown_count : Nat)
deriving DecidableEq, Repr

/-- Messages a `MachineAgent` dispatches on in `process_messages` (`other`
stands for any unknown type, which the loop ignores). -/
inductive MachineIn where
  | assign_job (job : Job)
  | maintenance_schedule (scheduled_time : Option ℚ)
  | emergency_stop (reason : String)
  | status_request
  | other
deriving DecidableEq, Repr

/-- `_send_status_update`: the status message built from the current state (it
is sent to both the scheduler and the maintenance agent). -/
def mk_status_update (s : MachineState) : MachineOut :=
  .status_update s.status.value (s.current_job.map Job.job_id) s.job_progress
    s.current_operating_hours s.jobs_completed s.breakdown_count

/-- `_notify_maintenance_agent alert_type`. -/
def notify_maintenance (alert_type : String) (s : MachineState) : MachineOut :=
  .maintenance_alert alert_type s.machine_id s.current_operating_hours
    s.last_maintenance s.breakdown_count

/-- `_stop_current_job`: when a job is present, emit `job_interrupted` (the
reason is the status string at call time) and clear `current_job`,
`job_start_time` and `job_progress`. -/
def stop_current_job (s : MachineState) : MachineState × List MachineOut :=
  match s.current_job with
  | none => (s, [])
  | some job =>
    ({ s with current_job := none, job_start_time := none, job_progress := 0 },
     [MachineOut.job_interrupted job.job_id s.status.value s.job_progress])

/-- `_handle_job_assignment`: accepted only when idle (store the job, start the
clock, go busy, send a status update); otherwise the assignment is rejected
with a print and nothing changes or is sent. -/
def handle_job_assignment (job : Job) (now : ℚ) (s : MachineState) :
    MachineState × List MachineOut :=
  if s.status = .idle then
    let s1 : MachineState :=
      { s with current_job := some job, job_start_time := some now,
               job_progress := 0, status := .busy }
    (s1, [mk_status_update s1])
  else (s, [])

/-- `_handle_emergency_stop`: stop any current job, go broken, send a status
update. -/
def handle_emergency_stop (s : MachineState) : MachineState × List MachineOut :=
  let p := stop_current_job s
  let s2 : MachineState := { p.1 with status := .broken }
  (s2, p.2 ++ [mk_status_update s2])

/-- `_start_maintenance`: stop any current job, go to maintenance, record the
maintenance time, reset operating hours, send a status update and a
`maintenance_started` alert. -/
def start_maintenance (now : ℚ) (s : MachineState) : MachineState × List MachineOut :=
  let p := if s.current_job.isSome then stop_current_job s else (s, [])
  let s2 : MachineState :=
    { p.1 with status := .maintenance, last_maintenance := now,
               current_operating_hours := 0 }
  (s2, p.2 ++ [mk_status_update s2, notify_maintenance "maintenance_started" s2])

/-- `_handle_maintenance_schedule`: start maintenance when the scheduled time
(defaulting to now) has been reached. -/
def handle_maintenance_schedule (scheduled_time : Option ℚ) (now : ℚ)
    (s : MachineState) : MachineState × List MachineOut :=
  if now ≥ scheduled_time.getD now then start_maintenance now s else (s, [])

/-- `_complete_job`: update the statistics, emit `job_done`, clear the job slot,
go idle and send a status update.  (The `some job, none` start-time case would
raise a `TypeError` in Python; it is unreachable from invariant states.) -/
def complete_job (now : ℚ) (s : MachineState) : MachineState × List MachineOut :=
  match s.current_job, s.job_start_time with
  | some job, some t0 =>
    let ct := now - t0
    let s1 : MachineState :=
      { s with jobs_completed := s.jobs_completed + 1,
               total_processing_time := s.total_processing_time + ct,
               current_job := none, job_start_time := none, job_progress := 0,
               status := .idle }
    (s1, [MachineOut.job_done job.job_id ct s.processing_speed, mk_status_update s1])
  | _, _ => (s, [])

/-- `execute_job`: returns unchanged unless busy with a job; otherwise set
`job_progress = min(elapsed / (processing_time / processing_speed), 1.0)`,
complete the job when progress reaches 1.0, and add 0.1 operating hours.
(The `some job, none` start-time case would raise a `TypeError` in Python; it
is unreachable from invariant states.) -/
def execute_job (now : ℚ) (s : MachineState) : MachineState × List MachineOut :=
  match s.current_job, s.job_start_time with
  | some job, some t0 =>
    if s.status = .busy then
      let adjusted := job.processing_time / s.processing_speed
      let prog := min ((now - t0) / adjusted) 1
      let s1 : MachineState := { s with job_progress := prog }
      let p := if prog ≥ 1 then complete_job now s1 else (s1, [])
      ({ p.1 with current_operating_hours := p.1.current_operating_hours + 0.1 }, p.2)
    else (s, [])
  | _, _ => (s, [])

/-- `_trigger_breakdown`: count the breakdown, go broken, stop any current job,
send a status update and a `breakdown` alert. -/
def trigger_breakdown (s : MachineState) : MachineState × List MachineOut :=
  let s1 : MachineState :=
    { s with breakdown_count := s.breakdown_count + 1, status := .broken }
  let p := if s1.current_job.isSome then stop_current_job s1 else (s1, [])
  (p.1, p.2 ++ [mk_status_update p.1, notify_maintenance "breakdown" p.1])

/-- `check_breakdown`: while busy, a breakdown occurs when the injected draw
exceeds the reliability (`random.random() > self.reliability`). -/
def check_breakdown (rand : ℚ) (s : MachineState) : MachineState × List MachineOut :=
  if s.status = .busy ∧ rand > s.reliability then trigger_breakdown s else (s, [])

/-- `check_maintenance_due`: emit a `maintenance_due` alert whenever the
operating hours have reached the threshold while the machine is idle (no state
change, no flag). -/
def check_maintenance_due (s : MachineState) : List MachineOut :=
  if s.current_operating_hours ≥ s.maintenance_due_hours ∧ s.status = .idle then
    [notify_maintenance "maintenance_due" s]
  else []

/-- `perform_repair`: a broken machine goes idle, sends a status update and
reports success; otherwise nothing happens and the call reports failure. -/
def perform_repair (s : MachineState) : MachineState × List MachineOut × Bool :=
  if s.status = .broken then
    let s1 : MachineState := { s with status := .idle }
    (s1, [mk_status_update s1], true)
  else (s, [], false)

/-- `complete_maintenance`: a machine in maintenance gains reliability
(capped at 0.99), goes idle, sends a status update and reports success. -/
def complete_maintenance (s : MachineState) : MachineState × List MachineOut × Bool :=
  if s.status = .maintenance then
    let s1 : MachineState :=
      { s with reliability := min (s.reliability + 0.02) 0.99, status := .idle }
    (s1, [mk_status_update s1], true)
  else (s, [], false)

/-- One iteration of the `process_messages` dispatch loop. -/
def process_one (now : ℚ) (s : MachineState) : MachineIn → MachineState × List MachineOut
  | .assign_job job => handle_job_assignment job now s
  | .maintenance_schedule t => handle_maintenance_schedule t now s
  | .emergency_stop _ => handle_emergency_stop s
  | .status_request => (s, [mk_status_update s])
  | .other => (s, [])

/-- `MachineAgent.process_messages`: drain the inbox in order, threading the
state and concatenating the sends in iteration order. -/
def machine_process_messages (now : ℚ) : List MachineIn → MachineState →
    MachineState × List MachineOut
  | [], s => (s, [])
  | m :: rest, s =>
    let p := process_one now s m
    let q := machine_process_messages now rest p.1
    (q.1, p.2 ++ q.2)

/-- `MachineAgent.step`: process messages; if busy, execute the job and run the
breakdown trial; check whether maintenance is due; send a periodic status
update when the injected Bernoulli draw (`random.random() < 0.1`) came out
true. -/
def machine_step (msgs : List MachineIn) (now rand : ℚ) (rstat : Bool)
    (s : MachineState) : MachineState × List MachineOut :=
  let p1 := machine_process_messages now msgs s
  let p2 :=
    if p1.1.status = .busy then
      let pa := execute_job now p1.1
      let pb := check_breakdown rand pa.1
      (pb.1, pa.2 ++ pb.2)
    else (p1.1, ([] : List MachineOut))
  let o3 := check_maintenance_due p2.1
  let o4 := if rstat then [mk_status_update p2.1] else []
  (p2.1, p1.2 ++ p2.2 ++ o3 ++ o4)

/-- The part of a `ProductionLineAgent`'s state that the bottleneck logic
reads and writes. -/
structure LineState where
  machine_sequence : List String
  bottlenecks : List String
  bottleneck_incidents : Nat
deriving DecidableEq, Repr

/-- Alerts the line agent appends to the scheduler's inbox. -/
inductive LineOut where
  | bottleneck_alert (bottleneck_machine blocking_machine : String)
  | machine_down_alert (affected_machine reason : String)
  | line_down_alert (failed_machine reason : String) (affected_machines : List String)
deriving DecidableEq, Repr

/-- The blocking condition on the downstream machine:
`status in ['broken', 'maintenance', 'busy']`. -/
def blocking_status (st : String) : Bool :=
  st == "broken" || st == "maintenance" || st == "busy"

/-- The adjacent pairs `(machine_sequence[i], machine_sequence[i+1])` that
`_detect_bottlenecks` iterates (`enumerate(self.machine_sequence[:-1])`). -/
def adj_pairs : List String → List (String × String)
  | a :: b :: rest => (a, b) :: adj_pairs (b :: rest)
  | _ => []

/-- The loop body of `_detect_bottlenecks` over the adjacent pairs.  `stf`
gives the live `status.value` of each machine (the Python code reads the
machine objects directly).  When the pair is blocked and the upstream machine
is not yet flagged, flag it, count the incident and send one alert. -/
def detect_aux (stf : String → String) :
    List (String × String) → LineState → LineState × List LineOut
  | [], s => (s, [])
  | (mi, mnext) :: ps, s =>
    if stf mi = "busy" ∧ blocking_status (stf mnext) = true then
      if mi ∈ s.bottlenecks then detect_aux stf ps s
      else
        let s' : LineState :=
          { s with bottlenecks := s.bottlenecks ++ [mi],
                   bottleneck_incidents := s.bottleneck_incidents + 1 }
        let p := detect_aux stf ps s'
        (p.1, LineOut.bottleneck_alert mi mnext :: p.2)
    else detect_aux stf ps s

/-- `_detect_bottlenecks` on the whole machine sequence. -/
def detect_bottlenecks (stf : String → String) (s : LineState) : LineState × List LineOut :=
  detect_aux stf (adj_pairs s.machine_sequence) s

/-- `_handle_machine_down`: alert the scheduler; when the failed machine is the
first of the sequence, also send the critical `line_down` alert naming all
machines.  (A machine absent from the sequence would make Python's `.index`
raise; status changes only come from the line's machines.) -/
def handle_machine_down (s : LineState) (machine_id reason : String) :
    LineState × List LineOut :=
  let down := [LineOut.machine_down_alert machine_id reason]
  if s.machine_sequence.head? = some machine_id then
    (s, down ++ [LineOut.line_down_alert machine_id reason s.machine_sequence])
  else (s, down)

/-- `_handle_machine_status_change`: on broken/maintenance run the
machine-down path; on idle run `_check_bottleneck_resolution`, which removes
the *sender* from the bottleneck list if present. -/
def handle_machine_status_change (s : LineState) (sender new_status : String) :
    LineState × List LineOut :=
  if new_status = "broken" ∨ new_status = "maintenance" then
    handle_machine_down s sender new_status
  else if new_status = "idle" then
    (if sender ∈ s.bottlenecks then
       { s with bottlenecks := s.bottlenecks.erase sender }
     else s, [])
  else (s, [])

/-- `AlertSeverity` from `05_MaintenanceAlertAgent.py`. -/
inductive AlertSeverity where
  | low
  | medium
  | high
  | critical
deriving DecidableEq, Repr

/-- The `.value` string of a severity. -/
def AlertSeverity.value : AlertSeverity → String
  | .low => "low"
  | .medium => "medium"
  | .high => "high"
  | .critical => "critical"

/-- A corrective repair record inserted by `_handle_breakdown`. -/
structure RepairRecord where
  machine_id : String
  breakdown_time : ℚ
  severity : AlertSeverity
  estimated_repair_time : ℚ
  mtype : String
deriving DecidableEq, Repr

/-- Python's string comparison: code-point lexicographic on the characters. -/
def chars_lt : List Char → List Char → Bool
  | [], [] => false
  | [], _ :: _ => true
  | _ :: _, [] => false
  | c :: cs, d :: ds =>
    if c.toNat < d.toNat then true
    else if c.toNat = d.toNat then chars_lt cs ds
    else false

/-- Python's `a < b` on strings. -/
def str_lt (a b : String) : Bool := chars_lt a.data b.data

/-- The sort key used on the repair queue:
`key=lambda x: (x['severity'].value, x['breakdown_time'])` — tuples compared
lexicographically, the severity compared as its *string* `.value`. -/
def repair_le (a b : RepairRecord) : Bool :=
  if str_lt a.severity.value b.severity.value then true
  else if a.severity.value = b.severity.value then decide (a.breakdown_time ≤ b.breakdown_time)
  else false

/-- Stable insertion used to model Python's stable `list.sort`. -/
def insert_sorted (x : RepairRecord) : List RepairRecord → List RepairRecord
  | [] => [x]
  | y :: ys => if repair_le y x then y :: insert_sorted x ys else x :: y :: ys

/-- Python's stable `self.repair_queue.sort(key=...)`. -/
def sort_repairs (l : List RepairRecord) : List RepairRecord :=
  l.foldl (fun acc x => insert_sorted x acc) []

/-- `_assess_breakdown_severity` from `breakdown_count` and
`operating_hours`. -/
def assess_breakdown_severity (operating_hours : ℚ) (breakdown_count : Nat) :
    AlertSeverity :=
  if breakdown_count > 5 ∨ operating_hours > 500 then .critical
  else if breakdown_count > 3 ∨ operating_hours > 300 then .high
  else if breakdown_count > 1 then .medium
  else .low

/-- The `(min, max)` bounds of `_estimate_repair_time`; the actual uniform
draw within them is an injected parameter of `handle_breakdown`. -/
def estimate_repair_bounds : AlertSeverity → ℚ × ℚ
  | .low => (1, 3)
  | .medium => (2, 6)
  | .high => (4, 10)
  | .critical => (8, 16)

/-- An alert record as built by `_create_alert` (the `emergency_type` kwarg of
emergency alerts is elided; no claim inspects it). -/
structure Alert where
  alert_id : Nat
  alert_type : String
  machine_id : String
  severity : AlertSeverity
  message : String
  timestamp : ℚ
  status : String
  resolved_time : Option ℚ
deriving DecidableEq, Repr

/-- A preventive/scheduled maintenance record. -/
structure MaintRecord where
  machine_id : String
  mtype : String
  scheduled_time : ℚ
  estimated_duration : ℚ
  priority : String
  status : Option String
  actual_start_time : Option ℚ
deriving DecidableEq, Repr

/-- The `MaintenanceAlertAgent` state touched by the embedded operations
(`machine_health` and the preventive intervals belong to the status-update
path, which no claim exercises beyond what is modelled here). -/
structure MAState where
  registered : List String
  maintenance_schedule : List (String × List MaintRecord)
  repair_queue : List RepairRecord
  active_alerts : List Alert
  alert_history : List Alert
  total_repairs : Nat
deriving DecidableEq, Repr

/-- Messages the maintenance agent appends to the scheduler's or a machine's
inbox. -/
inductive MAOut where
  | sched_repair_scheduled (machine_id : String) (estimated_duration : ℚ)
      (severity : String)
  | sched_scheduled_maintenance (machines : List String) (scheduled_time duration : ℚ)
  | sched_alert (alert_type machine_id severity message : String)
  | machine_alert (machine_id : String) (alert : Alert)
deriving DecidableEq, Repr

/-- `_create_alert`: the id is `len(self.alert_history) + 1`. -/
def create_alert (history : List Alert) (alert_type machine_id : String)
    (severity : AlertSeverity) (message : String) (now : ℚ) : Alert :=
  { alert_id := history.length + 1, alert_type := alert_type,
    machine_id := machine_id, severity := severity, message := message,
    timestamp := now, status := "active", resolved_time := none }

/-- `_broadcast_alert`: append to the active set and (a copy) to the history,
notify the scheduler, and notify the machine agent when it is registered. -/
def broadcast_alert (s : MAState) (a : Alert) : MAState × List MAOut :=
  let s1 : MAState :=
    { s with active_alerts := s.active_alerts ++ [a],
             alert_history := s.alert_history ++ [a] }
  (s1, [MAOut.sched_alert a.alert_type a.machine_id a.severity.value a.message] ++
       (if a.machine_id ∈ s.registered then [MAOut.machine_alert a.machine_id a] else []))

/-- `_handle_breakdown`: assess severity, append the corrective record and
re-sort the queue by `(severity.value, breakdown_time)`, broadcast a
`machine_breakdown` alert, and notify the scheduler of the scheduled repair.
`est_repair` is the injected `_estimate_repair_time` draw. -/
def handle_breakdown (s : MAState) (machine_id : String) (operating_hours : ℚ)
    (breakdown_count : Nat) (now est_repair : ℚ) : MAState × List MAOut :=
  let severity := assess_breakdown_severity operating_hours breakdown_count
  let record : RepairRecord :=
    { machine_id := machine_id, breakdown_time := now, severity := severity,
      estimated_repair_time := est_repair, mtype := "corrective" }
  let s1 : MAState := { s with repair_queue := sort_repairs (s.repair_queue ++ [record]) }
  let alert := create_alert s1.alert_history "machine_breakdown" machine_id severity
    ("Machine " ++ machine_id ++ " breakdown detected") now
  let p := broadcast_alert s1 alert
  (p.1, p.2 ++ [MAOut.sched_repair_scheduled machine_id est_repair severity.value])

/-- Append a record to `maintenance_schedule[machine_id]`.  (Python would
raise `KeyError` for an unregistered machine; `register_machine` creates the
entry, and the embedded callers guard on registration.) -/
def append_schedule (sched : List (String × List MaintRecord)) (machine_id : String)
    (r : MaintRecord) : List (String × List MaintRecord) :=
  sched.map fun p => if p.1 = machine_id then (p.1, p.2 ++ [r]) else p

/-- `_schedule_preventive_maintenance`: for a registered machine, append a
preventive record scheduled `off_rand` time units ahead with duration
`dur_rand` (the two injected uniform draws) and notify the scheduler. -/
def schedule_preventive_maintenance (s : MAState) (machine_id : String)
    (now off_rand dur_rand : ℚ) : MAState × List MAOut :=
  if machine_id ∈ s.registered then
    let record : MaintRecord :=
      { machine_id := machine_id, mtype := "preventive",
        scheduled_time := now + off_rand, estimated_duration := dur_rand,
        priority := "medium", status := none, actual_start_time := none }
    ({ s with maintenance_schedule := append_schedule s.maintenance_schedule machine_id record },
     [MAOut.sched_scheduled_maintenance [machine_id] (now + off_rand) dur_rand])
  else (s, [])

/-- `_handle_maintenance_alert`: dispatch on the alert type.  `r1` feeds the
breakdown repair-time draw, `r1`/`r2` the preventive offset and duration
draws.  (The `maintenance_started` branch calls `_track_maintenance_start`,
a method the class never defines — Python would raise `AttributeError`; no
claim exercises it and it is modelled as a no-op.) -/
def handle_maintenance_alert (s : MAState) (sender alert_type : String)
    (operating_hours : ℚ) (breakdown_count : Nat) (now r1 r2 : ℚ) :
    MAState × List MAOut :=
  if alert_type = "breakdown" then
    handle_breakdown s sender operating_hours breakdown_count now r1
  else if alert_type = "maintenance_due" then
    schedule_preventive_maintenance s sender now r1 r2
  else (s, [])

/-- `_resolve_alerts`: mark the matching active alerts resolved, then drop the
non-active ones from the active set (history keeps the copies made at
broadcast time). -/
def resolve_alerts (s : MAState) (machine_id alert_type : String) (now : ℚ) : MAState :=
  let marked := s.active_alerts.map fun a =>
    if a.machine_id = machine_id ∧ a.alert_type = alert_type ∧ a.status = "active" then
      { a with status := "resolved", resolved_time := some now }
    else a
  { s with active_alerts := marked.filter fun a => a.status == "active" }

/-- `process_repair_queue`: when the queue is nonempty, pop its head
(`pop(0)`), look up the machine and attempt `perform_repair`; on success count
the repair and resolve that machine's `machine_breakdown` alerts. -/
def process_repair_queue (s : MAState) (machines : List (String × MachineState))
    (now : ℚ) : MAState × List (String × MachineState) × List MachineOut :=
  match s.repair_queue with
  | [] => (s, machines, [])
  | record :: rest =>
    let s1 : MAState := { s with repair_queue := rest }
    match machines.lookup record.machine_id with
    | none => (s1, machines, [])
    | some m =>
      let (m', outs, ok) := perform_repair m
      let machines' := machines.map fun p =>
        if p.1 = record.machine_id then (p.1, m') else p
      if ok then
        (resolve_alerts { s1 with total_repairs := s1.total_repairs + 1 }
          record.machine_id "machine_breakdown" now, machines', outs)
      else (s1, machines', outs)

/-- The final block of `MaintenanceAlertAgent.step`: once the alert history
exceeds 100 entries, keep only the last 100 (`self.alert_history[-100:]`). -/
def trim_alert_history (s : MAState) : MAState :=
  if s.alert_history.length > 100 then
    { s with alert_history := s.alert_history.drop (s.alert_history.length - 100) }
  else s

/-- The job-slot invariant of claim C10: a stored job implies the machine is
busy, and any non-busy state has a cleared progress and start time. -/
def MachineInv (s : MachineState) : Prop :=
  (s.current_job ≠ none → s.status = .busy) ∧
  (s.status ≠ .busy → s.job_progress = 0 ∧ s.job_start_time = none)

/-- The inductive strengthening preserved by every machine operation: a stored
job implies busy with a start time, and an empty job slot implies cleared
progress and start time. -/
def MachineInvS (s : MachineState) : Prop :=
  (s.current_job ≠ none → s.status = .busy ∧ s.job_start_time ≠ none) ∧
  (s.current_job = none → s.job_progress = 0 ∧ s.job_start_time = none)

/-- Is this outgoing message a `maintenance_due` alert? -/
def is_maintenance_due_alert : MachineOut → Bool
  | .maintenance_alert t _ _ _ _ => t == "maintenance_due"
  | _ => false

/-- Number of `maintenance_due` alerts among the outgoing messages. -/
def count_maintenance_due (l : List MachineOut) : Nat :=
  (l.filter is_maintenance_due_alert).length

/-- The maintenance schedule list of one machine. -/
def schedule_for (s : MAState) (machine_id : String) : List MaintRecord :=
  (s.maintenance_schedule.lookup machine_id).getD []

/-- Create one alert and broadcast it, the composition every alert-producing
handler of `MaintenanceAlertAgent` performs. -/
def create_and_broadcast (s : MAState) (alert_type machine_id : String)
    (severity : AlertSeverity) (message : String) (now : ℚ) : MAState :=
  (broadcast_alert s (create_alert s.alert_history alert_type machine_id severity message now)).1

/-- Iterate `create_and_broadcast` n times. -/
def alert_iter : Nat → MAState → MAState
  | 0, s => s
  | n + 1, s => alert_iter n (create_and_broadcast s "machine_breakdown" "M1" .low "b" 0)

/-- Concrete inputs used by the claim theorems. -/
def jA : Job := { job_id := "A", priority := "high", due_date := 10, processing_time := 5 }

def jB : Job := { job_id := "B", priority := "high", due_date := 25, processing_time := 5 }

def mrec_idle : MachRec := { status := "idle", current_job := none, last_update := 0 }

def c1_state : SchedState :=
  { job_queue := handle_new_job_wf (handle_new_job_wf [] jA) jB,
    machines := [("M1", mrec_idle)], completed_jobs := [] }

def c2_state : SchedState :=
  { job_queue := [],
    machines := [("M1", { status := "busy", current_job := some "J1", last_update := 0 })],
    completed_jobs := [] }

def c3_sched : SchedState :=
  { job_queue := handle_new_job_wf [] jA,
    machines := [("M1", mrec_idle)], completed_jobs := [] }

def machine_template : MachineState :=
  { machine_id := "M1", status := .idle, current_job := none, job_start_time := none,
    job_progress := 0, processing_speed := 1, reliability := 1,
    maintenance_due_hours := 150, current_operating_hours := 0, jobs_completed := 0,
    total_processing_time := 0, breakdown_count := 0, last_maintenance := 0 }

def c3_machine : MachineState := { machine_template with status := .broken }

def c4_ma0 : MAState :=
  { registered := ["M1", "M2"], maintenance_schedule := [("M1", []), ("M2", [])],
    repair_queue := [], active_alerts := [], alert_history := [], total_repairs := 0 }

def c4_state : MAState :=
  (handle_breakdown (handle_breakdown c4_ma0 "M1" 10 1 1 2).1 "M2" 10 2 2 3).1

def c4_machines : List (String × MachineState) :=
  [("M1", { machine_template with status := .broken }),
   ("M2", { machine_template with machine_id := "M2", status := .broken })]

def c5_line0 : LineState :=
  { machine_sequence := ["A", "B"], bottlenecks := [], bottleneck_incidents := 0 }

def c5_statuses : String → String := fun m => if m = "A" then "busy" else "broken"

def c8_machine : MachineState := { machine_template with current_operating_hours := 200 }

def c8_ma : MAState :=
  { registered := ["M1"], maintenance_schedule := [("M1", [])], repair_queue := [],
    active_alerts := [], alert_history := [], total_repairs := 0 }

def ma_empty : MAState :=
  { registered := [], maintenance_schedule := [], repair_queue := [],
    active_alerts := [], alert_history := [], total_repairs := 0 }

def jd_no_priority : JobDict :=
  { job_id := some "J", priority := none, due_date := some 5, processing_time := some 3 }

def jd_no_id : JobDict :=
  { job_id := none, priority := some "high", due_date := some 5, processing_time := some 3 }

def c9_machine : MachineState :=
  { machine_template with status := .busy, current_job := some jA, job_start_time := some 0 }

/-- Claim C1: the claim says that for equal priority the job with the earlier
due_date is dispatched first.  Evaluating the embedded scheduler refutes this:
with jobs A (high, due 10) and B (high, due 25) queued and one idle machine,
`assign_jobs` dispatches B — pushing `-due_date` into a min-heap makes the
*latest* deadline pop first, contradicting the code's own comment
("Use negative due_date for earliest due date first"). -/
theorem C1_later_due_date_dispatched_first :
    (assign_jobs c1_state).2 = [("M1", jB)] ∧
    (assign_jobs c1_state).1.job_queue.map QEntry.job = [jA] ∧
    jA.priority = jB.priority ∧ jA.due_date < jB.due_date := by
  decide

/-- Claim C2: the claim says a status update into broken/maintenance while a
job is assigned re-inserts that job into the job queue.  Evaluating the
embedded scheduler refutes this: machine M1 is busy with job J1, the update to
broken reaches `_reschedule_job`, yet the queue stays empty — the code's own
comment admits it only logs instead of re-queuing. -/
theorem C2_status_update_does_not_reinsert :
    (handle_status_update c2_state "M1" "broken" 5).job_queue = [] ∧
    (handle_status_update c2_state "M1" "broken" 5).machines =
      [("M1", { status := "broken", current_job := some "J1", last_update := 5 })] := by
  decide

/-- Claim C4: the claim says the repair queue is sorted by severity descending
(critical, high, medium, low) and that `process_repair_queue` services the
highest-priority record.  Evaluating the embedded agent refutes this: after a
low-severity and a medium-severity breakdown the queue is [low, medium]
(severities are compared as *strings*, and "low" < "medium" alphabetically),
and `process_repair_queue` pops and services the low one, contradicting the
code's own comment ("Take highest priority repair"). -/
theorem C4_low_severity_served_before_medium :
    c4_state.repair_queue.map RepairRecord.severity
      = [AlertSeverity.low, AlertSeverity.medium] ∧
    c4_state.repair_queue.map RepairRecord.severity
      ≠ [AlertSeverity.medium, AlertSeverity.low] ∧
    (process_repair_queue c4_state c4_machines 5).1.repair_queue.map RepairRecord.severity
      = [AlertSeverity.medium] ∧
    (process_repair_queue c4_state c4_machines 5).1.total_repairs = 1 := by
  decide

/-- Claim C3 counterexample: a job dispatched to a machine whose real status is
broken is rejected locally (machine unchanged, nothing sent back), but the
scheduler's queue is already empty — the job jA is *not* still present in the
job queue, contrary to the claim. -/
theorem C3_job_lost_on_rejection :
    (assign_jobs c3_sched).2 = [("M1", jA)] ∧
    (assign_jobs c3_sched).1.job_queue = [] ∧
    handle_job_assignment jA 0 c3_machine = (c3_machine, []) := by
  decide

/-- Claim C3 (amended): an `assign_job` delivered to a non-idle machine is
rejected locally — the machine state is unchanged and no message is sent back —
while the dispatched job has already been popped from the scheduler's queue by
`assign_jobs`; no rejection path re-inserts it, so the job is lost. -/
theorem C3_rejection_local_and_job_removed (m : MachineState) (j : Job) (now : ℚ)
    (h : m.status ≠ MachineStatus.idle)
    (s : SchedState) (mid : String) (r : MachRec) (e : QEntry) (rest : List QEntry)
    (hm : s.machines = [(mid, r)]) (hr : r.status = "idle")
    (hq : pop_min s.job_queue = some (e, rest)) :
    handle_job_assignment j now m = (m, []) ∧
    (assign_jobs s).1.job_queue = rest ∧
    (assign_jobs s).2 = [(mid, e.job)] := by
  refine ⟨by simp [handle_job_assignment, h], ?_, ?_⟩ <;>
    simp [assign_jobs, hm, assign_jobs_aux, hr, hq]

theorem C3_rejection_local_and_job_removed_witness :
    handle_job_assignment jA 0 c3_machine = (c3_machine, []) ∧
    (assign_jobs c3_sched).1.job_queue = [] ∧
    (assign_jobs c3_sched).2 = [("M1", jA)] :=
  C3_rejection_local_and_job_removed c3_machine jA 0 (by decide) c3_sched "M1"
    mrec_idle ⟨0, -10, jA⟩ [] (by decide) (by decide) (by decide)

/-- Claim C7 counterexample: a `new_job` message whose job dict is missing
`priority` makes message processing escape with a `KeyError` — contrary to the
claim that no exception escapes and the job is dropped with a diagnostic. -/
theorem C7_keyerror_escapes :
    (process_new_jobs [] [jd_no_priority]).2 = some "KeyError: priority" ∧
    (process_new_jobs [] [jd_no_priority]).1 = [] := by
  decide

/-- Claim C7 (amended): a `new_job` whose dict is missing priority, due_date or
job_id is not dropped with a diagnostic — a `KeyError` escapes message
processing.  Missing priority or due_date leaves the queue unchanged; a job
missing only `job_id` is inserted before the error escapes. -/
theorem C7_malformed_job_raises (q : List (Nat × ℚ × JobDict)) (jd : JobDict)
    (h : jd.priority = none ∨ jd.due_date = none ∨ jd.job_id = none) :
    (handle_new_job q jd).2.isSome = true ∧
    ((jd.priority = none ∨ jd.due_date = none) → (handle_new_job q jd).1 = q) ∧
    (jd.priority ≠ none → jd.due_date ≠ none → jd.job_id = none →
      (handle_new_job q jd).1.length = q.length + 1) ∧
    (process_new_jobs q [jd]).2.isSome = true := by
  rcases hp : jd.priority with _ | p <;> rcases hd : jd.due_date with _ | d <;>
    rcases hi : jd.job_id with _ | i <;>
      simp_all [handle_new_job, process_new_jobs]

theorem C7_malformed_job_raises_witness :
    (handle_new_job [] jd_no_priority).2.isSome = true ∧
    ((jd_no_priority.priority = none ∨ jd_no_priority.due_date = none) →
      (handle_new_job [] jd_no_priority).1 = []) ∧
    (jd_no_priority.priority ≠ none → jd_no_priority.due_date ≠ none →
      jd_no_priority.job_id = none →
      (handle_new_job [] jd_no_priority).1.length
        = ([] : List (Nat × ℚ × JobDict)).length + 1) ∧
    (process_new_jobs [] [jd_no_priority]).2.isSome = true :=
  C7_malformed_job_raises [] jd_no_priority (Or.inl rfl)

/-- Claim C5 counterexample: line [A, B] with A busy and B broken; one
monitoring tick flags A and emits one alert, but when B (machine i+1) becomes
idle the flag on A is *not* cleared — `_check_bottleneck_resolution` removes
the idle *sender* from the list, so resolution is keyed to machine i itself,
contrary to the claim. -/
theorem C5_flag_not_cleared_by_downstream_idle :
    (detect_bottlenecks c5_statuses c5_line0).1.bottlenecks = ["A"] ∧
    (detect_bottlenecks c5_statuses c5_line0).2 = [LineOut.bottleneck_alert "A" "B"] ∧
    (handle_machine_status_change (detect_bottlenecks c5_statuses c5_line0).1
        "B" "idle").1.bottlenecks = ["A"] := by
  decide

set_option maxRecDepth 10000 in
/-- Claim C6 counterexample: after 101 alerts the history is trimmed to 100
entries, and the next created alert re-uses id 101 — the id of the previously
created alert — so ids are not strictly increasing across a trim. -/
theorem C6_alert_id_repeats_after_trim :
    ((alert_iter 101 ma_empty).alert_history.map Alert.alert_id).getLast? = some 101 ∧
    (create_alert (trim_alert_history (alert_iter 101 ma_empty)).alert_history
        "machine_breakdown" "M1" AlertSeverity.low "b" 0).alert_id = 101 ∧
    ¬ (create_alert (trim_alert_history (alert_iter 101 ma_empty)).alert_history
        "machine_breakdown" "M1" AlertSeverity.low "b" 0).alert_id > 101 := by
  decide

/-- Claim C8 counterexample: a machine idle with operating hours past its
threshold emits a `maintenance_due` alert on *every* tick (two alerts over two
ticks, not exactly one), and every alert handled by the maintenance agent
appends *another* preventive record (two records after two alerts). -/
theorem C8_alert_repeats_every_tick :
    count_maintenance_due (machine_step [] 0 1 false c8_machine).2 +
      count_maintenance_due
        (machine_step [] 1 1 false (machine_step [] 0 1 false c8_machine).1).2 = 2 ∧
    (schedule_for (handle_maintenance_alert (handle_maintenance_alert c8_ma "M1"
        "maintenance_due" 200 0 0 1 1).1 "M1" "maintenance_due" 200 0 0 1 1).1
      "M1").length = 2 := by
  decide

/-- Looking up a machine after appending to its schedule list. -/
theorem lookup_append_schedule (sched : List (String × List MaintRecord))
    (mid : String) (r : MaintRecord) :
    (append_schedule sched mid r).lookup mid = (sched.lookup mid).map (fun l => l ++ [r]) := by
  induction sched with
  | nil => rfl
  | cons p rest ih =>
    obtain ⟨k, v⟩ := p
    have hmap : append_schedule ((k, v) :: rest) mid r
        = (if k = mid then (k, v ++ [r]) else (k, v)) :: append_schedule rest mid r := by
      simp only [append_schedule, List.map_cons]
    rw [hmap]
    by_cases hk : k = mid
    · subst hk
      rw [if_pos rfl]
      simp [List.lookup]
    · rw [if_neg hk]
      have hne : (mid == k) = false := by
        simp [Ne.symm hk]
      simp [List.lookup, hne, ih]

/-- `count_maintenance_due` distributes over list append. -/
theorem count_maintenance_due_append (l1 l2 : List MachineOut) :
    count_maintenance_due (l1 ++ l2) = count_maintenance_due l1 + count_maintenance_due l2 := by
  simp [count_maintenance_due, List.filter_append]

/-- Claim C6 (amended): alert ids are strictly increasing only while the
history has not been trimmed: whenever every stored id is at most the history
length (true initially and preserved by create-and-broadcast), a newly created
alert's id — history length + 1 — strictly exceeds every stored id.  The step
trim breaks that precondition, after which ids repeat (see the
counterexample). -/
theorem C6_alert_ids_increase_before_trim (s : MAState) (ty mid msg : String)
    (sev : AlertSeverity) (now : ℚ)
    (h : ∀ a ∈ s.alert_history, a.alert_id ≤ s.alert_history.length) :
    (∀ a ∈ s.alert_history,
      a.alert_id < (create_alert s.alert_history ty mid sev msg now).alert_id) ∧
    (∀ a ∈ (create_and_broadcast s ty mid sev msg now).alert_history,
      a.alert_id ≤ (create_and_broadcast s ty mid sev msg now).alert_history.length) := by
  constructor
  · intro a ha
    have := h a ha
    simp only [create_alert]
    omega
  · intro a ha
    simp only [create_and_broadcast, broadcast_alert, create_alert, List.mem_append,
      List.mem_singleton, List.length_append, List.length_singleton] at ha ⊢
    rcases ha with ha | rfl
    · have := h a ha
      omega
    · simp

theorem C6_alert_ids_increase_before_trim_witness :
    (∀ a ∈ ma_empty.alert_history,
      a.alert_id < (create_alert ma_empty.alert_history "machine_breakdown" "M1"
        AlertSeverity.low "b" 0).alert_id) ∧
    (∀ a ∈ (create_and_broadcast ma_empty "machine_breakdown" "M1"
        AlertSeverity.low "b" 0).alert_history,
      a.alert_id ≤ (create_and_broadcast ma_empty "machine_breakdown" "M1"
        AlertSeverity.low "b" 0).alert_history.length) :=
  C6_alert_ids_increase_before_trim ma_empty "machine_breakdown" "M1" "b"
    AlertSeverity.low 0 (by simp [ma_empty])

/-- Claim C8 (amended): while a machine is idle with operating hours at or past
its threshold, *every* tick emits exactly one `maintenance_due` alert and
leaves the machine state unchanged — so the alert repeats on every tick the
condition persists, rather than exactly once overall; and each
`maintenance_due` alert handled by the maintenance agent for a registered
machine appends one more preventive record to that machine's schedule. -/
theorem C8_alert_each_tick_record_each_alert (s : MachineState) (now rand : ℚ)
    (rstat : Bool) (hidle : s.status = MachineStatus.idle)
    (hdue : s.current_operating_hours ≥ s.maintenance_due_hours)
    (ma : MAState) (mid : String) (hreg : mid ∈ ma.registered)
    (hsched : (ma.maintenance_schedule.lookup mid).isSome)
    (now2 r1 r2 oh : ℚ) (bc : Nat) :
    (machine_step [] now rand rstat s).1 = s ∧
    count_maintenance_due (machine_step [] now rand rstat s).2 = 1 ∧
    schedule_for (handle_maintenance_alert ma mid "maintenance_due" oh bc now2 r1 r2).1 mid
      = schedule_for ma mid ++
        [{ machine_id := mid, mtype := "preventive", scheduled_time := now2 + r1,
           estimated_duration := r2, priority := "medium", status := none,
           actual_start_time := none }] := by
  have hnb : s.status ≠ MachineStatus.busy := by
    rw [hidle]; intro hco; cases hco
  refine ⟨?_, ?_, ?_⟩
  · simp [machine_step, machine_process_messages, hnb]
  · simp only [machine_step, machine_process_messages, hnb, if_neg, if_false]
    have h3 : count_maintenance_due (check_maintenance_due s) = 1 := by
      simp [check_maintenance_due, hdue, hidle, count_maintenance_due,
        is_maintenance_due_alert, notify_maintenance]
    have h4 : ∀ b : Bool, count_maintenance_due (if b then [mk_status_update s] else []) = 0 := by
      intro b
      cases b <;> simp [count_maintenance_due, is_maintenance_due_alert, mk_status_update]
    simp [count_maintenance_due_append, h3, h4]
  · obtain ⟨l, hl⟩ := Option.isSome_iff_exists.mp hsched
    simp only [handle_maintenance_alert]
    rw [if_neg (by decide)]
    simp only [if_pos rfl, schedule_preventive_maintenance, hreg, if_true]
    simp [schedule_for, lookup_append_schedule, hl]

theorem C8_alert_each_tick_record_each_alert_witness :
    (machine_step [] 0 1 false c8_machine).1 = c8_machine ∧
    count_maintenance_due (machine_step [] 0 1 false c8_machine).2 = 1 ∧
    schedule_for (handle_maintenance_alert c8_ma "M1" "maintenance_due" 0 0 3 1 2).1 "M1"
      = schedule_for c8_ma "M1" ++
        [{ machine_id := "M1", mtype := "preventive", scheduled_time := 3 + 1,
           estimated_duration := 2, priority := "medium", status := none,
           actual_start_time := none }] :=
  C8_alert_each_tick_record_each_alert c8_machine 0 1 false (by decide) (by decide)
    c8_ma "M1" (by decide) (by decide) 3 1 2 0 0

/-- Once a machine is flagged as a bottleneck, a detection pass emits no new
alert for it and keeps it flagged (the flag list only grows during a pass). -/
theorem detect_aux_flagged (stf : String → String) (ps : List (String × String))
    (s : LineState) (mi : String) (h : mi ∈ s.bottlenecks) :
    mi ∈ (detect_aux stf ps s).1.bottlenecks ∧
    ∀ nxt, LineOut.bottleneck_alert mi nxt ∉ (detect_aux stf ps s).2 := by
  induction ps generalizing s with
  | nil =>
    refine ⟨by simpa [detect_aux] using h, ?_⟩
    intro nxt
    simp [detect_aux]
  | cons p rest ih =>
    obtain ⟨a, b⟩ := p
    by_cases hc : stf a = "busy" ∧ blocking_status (stf b) = true
    · by_cases hm : a ∈ s.bottlenecks
      · have := ih s h
        simpa [detect_aux, hc, hm] using this
      · have hne : a ≠ mi := fun he => hm (he ▸ h)
        have h' : mi ∈ (LineState.mk s.machine_sequence (s.bottlenecks ++ [a])
            (s.bottleneck_incidents + 1)).bottlenecks := by
          simp [h]
        have hrec := ih _ h'
        refine ⟨?_, ?_⟩
        · simpa [detect_aux, hc, hm] using hrec.1
        · intro nxt
          simp only [detect_aux, hc, hm, if_true, if_false, and_self, List.mem_cons]
          simp only [detect_aux, hc, hm] at hrec
          intro hmem
          rcases hmem with heq | hmem
          · injection heq with h1 h2
            exact hne h1.symm
          · exact hrec.2 nxt hmem
    · have := ih s h
      simpa [detect_aux, hc] using this

/-- Claim C5 (amended): repeated monitoring ticks emit at most one bottleneck
alert per flagged machine — once machine i is in the bottleneck list, a
detection pass emits no new alert for it and keeps the flag — and the flag is
cleared when machine i *itself* reports an idle status change (the resolution
handler removes the idle sender), not when machine i+1 becomes idle. -/
theorem C5_flag_once_cleared_by_self_idle (stf : String → String) (s : LineState)
    (mi : String) (h : mi ∈ s.bottlenecks) :
    (mi ∈ (detect_bottlenecks stf s).1.bottlenecks ∧
      ∀ nxt, LineOut.bottleneck_alert mi nxt ∉ (detect_bottlenecks stf s).2) ∧
    (handle_machine_status_change s mi "idle").1.bottlenecks = s.bottlenecks.erase mi := by
  constructor
  · exact detect_aux_flagged stf (adj_pairs s.machine_sequence) s mi h
  · simp [handle_machine_status_change, h]

theorem C5_flag_once_cleared_by_self_idle_witness :
    ("A" ∈ (detect_bottlenecks c5_statuses
        (detect_bottlenecks c5_statuses c5_line0).1).1.bottlenecks ∧
      ∀ nxt, LineOut.bottleneck_alert "A" nxt ∉
        (detect_bottlenecks c5_statuses (detect_bottlenecks c5_statuses c5_line0).1).2) ∧
    (handle_machine_status_change (detect_bottlenecks c5_statuses c5_line0).1
        "A" "idle").1.bottlenecks
      = (detect_bottlenecks c5_statuses c5_line0).1.bottlenecks.erase "A" :=
  C5_flag_once_cleared_by_self_idle c5_statuses
    (detect_bottlenecks c5_statuses c5_line0).1 "A" (by decide)

theorem execute_job_busy_progress (s : MachineState) (j : Job) (t0 n : ℚ)
    (hs : s.status = MachineStatus.busy) (hj : s.current_job = some j)
    (ht : s.job_start_time = some t0)
    (hlt : (n - t0) / (j.processing_time / s.processing_speed) < 1) :
    (execute_job n s).1 = { s with
      job_progress := min ((n - t0) / (j.processing_time / s.processing_speed)) 1,
      current_operating_hours := s.current_operating_hours + 0.1 } := by
  have hnotge : ¬ (min ((n - t0) / (j.processing_time / s.processing_speed)) 1 ≥ 1) := by
    intro hge
    exact absurd (le_trans hge (min_le_left _ _)) (not_le.mpr hlt)
  simp [execute_job, hj, ht, hs, hnotge]

theorem execute_job_busy_done (s : MachineState) (j : Job) (t0 n : ℚ)
    (hs : s.status = MachineStatus.busy) (hj : s.current_job = some j)
    (ht : s.job_start_time = some t0)
    (hge : 1 ≤ (n - t0) / (j.processing_time / s.processing_speed)) :
    (execute_job n s).1 = { s with
      job_progress := 0, current_job := none, job_start_time := none,
      status := MachineStatus.idle, jobs_completed := s.jobs_completed + 1,
      total_processing_time := s.total_processing_time + (n - t0),
      current_operating_hours := s.current_operating_hours + 0.1 } := by
  have hmin : min ((n - t0) / (j.processing_time / s.processing_speed)) 1 = 1 :=
    min_eq_right hge
  simp [execute_job, hj, ht, hs, hmin, complete_job]

/-- Claim C9 (confirmed): for a machine busy with a job (positive processing
time and speed), `execute_job` computes
`job_progress = min(elapsed / (processing_time / processing_speed), 1.0)`, the
progress never exceeds 1, it is non-decreasing across successive calls while
the job has not completed, and elapsed time reaching the adjusted processing
time (progress 1.0) triggers completion (idle, job slot cleared). -/
theorem C9_progress_monotone_bounded (s : MachineState) (j : Job) (t0 n1 n2 : ℚ)
    (hs : s.status = MachineStatus.busy) (hj : s.current_job = some j)
    (ht : s.job_start_time = some t0)
    (hpt : 0 < j.processing_time) (hsp : 0 < s.processing_speed) (h12 : n1 ≤ n2) :
    (execute_job n1 s).1.job_progress ≤ 1 ∧
    ((n1 - t0) / (j.processing_time / s.processing_speed) < 1 →
      (execute_job n1 s).1.status = MachineStatus.busy ∧
      (execute_job n1 s).1.job_progress
        = min ((n1 - t0) / (j.processing_time / s.processing_speed)) 1 ∧
      ((n2 - t0) / (j.processing_time / s.processing_speed) < 1 →
        (execute_job n1 s).1.job_progress
          ≤ (execute_job n2 (execute_job n1 s).1).1.job_progress)) ∧
    (1 ≤ (n1 - t0) / (j.processing_time / s.processing_speed) →
      (execute_job n1 s).1.status = MachineStatus.idle ∧
      (execute_job n1 s).1.current_job = none) := by
  have hadj : 0 < j.processing_time / s.processing_speed := div_pos hpt hsp
  by_cases h1 : 1 ≤ (n1 - t0) / (j.processing_time / s.processing_speed)
  · have hE := execute_job_busy_done s j t0 n1 hs hj ht h1
    refine ⟨?_, ?_, ?_⟩
    · rw [hE]; norm_num
    · intro hlt
      exact absurd h1 (not_le.mpr hlt)
    · intro _
      rw [hE]
      exact ⟨rfl, rfl⟩
  · have hlt1 : (n1 - t0) / (j.processing_time / s.processing_speed) < 1 := not_le.mp h1
    have hE := execute_job_busy_progress s j t0 n1 hs hj ht hlt1
    refine ⟨?_, ?_, ?_⟩
    · rw [hE]
      exact min_le_right _ _
    · intro _
      refine ⟨by rw [hE]; exact hs, by rw [hE], ?_⟩
      intro hlt2
      have hs' : (execute_job n1 s).1.status = MachineStatus.busy := by rw [hE]; exact hs
      have hj' : (execute_job n1 s).1.current_job = some j := by rw [hE]; exact hj
      have ht' : (execute_job n1 s).1.job_start_time = some t0 := by rw [hE]; exact ht
      have hsp' : (execute_job n1 s).1.processing_speed = s.processing_speed := by rw [hE]
      have hlt2' : (n2 - t0) / (j.processing_time / (execute_job n1 s).1.processing_speed) < 1 := by
        rw [hsp']; exact hlt2
      have hE2 := execute_job_busy_progress (execute_job n1 s).1 j t0 n2 hs' hj' ht' hlt2'
      rw [hE2, hE]
      simp only [hsp']
      have hx : (n1 - t0) / (j.processing_time / s.processing_speed)
          ≤ (n2 - t0) / (j.processing_time / s.processing_speed) :=
        (div_le_div_iff_of_pos_right hadj).mpr (sub_le_sub_right h12 t0)
      exact min_le_min hx le_rfl
    · intro hge
      exact absurd hge h1

theorem C9_progress_monotone_bounded_witness :
    (execute_job 1 c9_machine).1.job_progress ≤ 1 ∧
    ((1 - 0) / (jA.processing_time / c9_machine.processing_speed) < 1 →
      (execute_job 1 c9_machine).1.status = MachineStatus.busy ∧
      (execute_job 1 c9_machine).1.job_progress
        = min ((1 - 0) / (jA.processing_time / c9_machine.processing_speed)) 1 ∧
      ((2 - 0) / (jA.processing_time / c9_machine.processing_speed) < 1 →
        (execute_job 1 c9_machine).1.job_progress
          ≤ (execute_job 2 (execute_job 1 c9_machine).1).1.job_progress)) ∧
    (1 ≤ (1 - 0) / (jA.processing_time / c9_machine.processing_speed) →
      (execute_job 1 c9_machine).1.status = MachineStatus.idle ∧
      (execute_job 1 c9_machine).1.current_job = none) :=
  C9_progress_monotone_bounded c9_machine jA 0 1 2 rfl rfl rfl
    (by decide) (by decide) (by decide)

/-- The strengthened invariant implies the claimed job-slot invariant. -/
theorem invS_imp_inv (s : MachineState) (h : MachineInvS s) : MachineInv s := by
  obtain ⟨h1, h2⟩ := h
  refine ⟨fun hj => (h1 hj).1, fun hs => ?_⟩
  cases hc : s.current_job with
  | none => exact h2 hc
  | some j => exact absurd (h1 (by simp [hc])).1 hs

/-- `_handle_job_assignment` preserves the strengthened invariant. -/
theorem invS_handle_job_assignment (j : Job) (now : ℚ) (s : MachineState)
    (h : MachineInvS s) : MachineInvS (handle_job_assignment j now s).1 := by
  by_cases hs : s.status = MachineStatus.idle
  · simp [handle_job_assignment, hs, MachineInvS]
  · simpa [handle_job_assignment, hs, MachineInvS] using h

/-- `_handle_emergency_stop` preserves the strengthened invariant. -/
theorem invS_handle_emergency_stop (s : MachineState) (h : MachineInvS s) :
    MachineInvS (handle_emergency_stop s).1 := by
  obtain ⟨h1, h2⟩ := h
  cases hj : s.current_job with
  | none =>
    obtain ⟨hp, hst⟩ := h2 hj
    simp [handle_emergency_stop, stop_current_job, hj, MachineInvS, hp, hst]
  | some job =>
    simp [handle_emergency_stop, stop_current_job, hj, MachineInvS]

/-- `_start_maintenance` preserves the strengthened invariant. -/
theorem invS_start_maintenance (now : ℚ) (s : MachineState) (h : MachineInvS s) :
    MachineInvS (start_maintenance now s).1 := by
  obtain ⟨h1, h2⟩ := h
  cases hj : s.current_job with
  | none =>
    obtain ⟨hp, hst⟩ := h2 hj
    simp [start_maintenance, stop_current_job, hj, MachineInvS, hp, hst]
  | some job =>
    simp [start_maintenance, stop_current_job, hj, MachineInvS]

/-- `_handle_maintenance_schedule` preserves the strengthened invariant. -/
theorem invS_handle_maintenance_schedule (t : Option ℚ) (now : ℚ) (s : MachineState)
    (h : MachineInvS s) : MachineInvS (handle_maintenance_schedule t now s).1 := by
  by_cases hc : now ≥ t.getD now
  · simpa [handle_maintenance_schedule, hc] using invS_start_maintenance now s h
  · simpa [handle_maintenance_schedule, hc] using h

/-- `execute_job` preserves the strengthened invariant. -/
theorem invS_execute_job (n : ℚ) (s : MachineState) (h : MachineInvS s) :
    MachineInvS (execute_job n s).1 := by
  obtain ⟨h1, h2⟩ := h
  cases hj : s.current_job with
  | none => simpa [execute_job, hj, MachineInvS] using h2 hj
  | some job =>
    cases ht : s.job_start_time with
    | none => exact absurd ht (h1 (by simp [hj])).2
    | some t0 =>
      by_cases hs : s.status = MachineStatus.busy
      · by_cases hp : min ((n - t0) / (job.processing_time / s.processing_speed)) 1 ≥ 1
        · simp [execute_job, hj, ht, hs, hp, complete_job, MachineInvS]
        · simp [execute_job, hj, ht, hs, hp, MachineInvS]
      · exact absurd (h1 (by simp [hj])).1 hs

/-- `check_breakdown` preserves the strengthened invariant. -/
theorem invS_check_breakdown (r : ℚ) (s : MachineState) (h : MachineInvS s) :
    MachineInvS (check_breakdown r s).1 := by
  obtain ⟨h1, h2⟩ := h
  by_cases hc : s.status = MachineStatus.busy ∧ r > s.reliability
  · cases hj : s.current_job with
    | none =>
      obtain ⟨hp, hst⟩ := h2 hj
      simp [check_breakdown, hc, trigger_breakdown, stop_current_job, hj,
        MachineInvS, hp, hst]
    | some job =>
      simp [check_breakdown, hc, trigger_breakdown, stop_current_job, hj, MachineInvS]
  · simpa [check_breakdown, hc] using ⟨h1, h2⟩

/-- `perform_repair` preserves the strengthened invariant. -/
theorem invS_perform_repair (s : MachineState) (h : MachineInvS s) :
    MachineInvS (perform_repair s).1 := by
  obtain ⟨h1, h2⟩ := h
  by_cases hb : s.status = MachineStatus.broken
  · cases hj : s.current_job with
    | none =>
      obtain ⟨hp, hst⟩ := h2 hj
      simp [perform_repair, hb, MachineInvS, hj, hp, hst]
    | some job =>
      have hbusy := (h1 (by simp [hj])).1
      rw [hb] at hbusy
      cases hbusy
  · simpa [perform_repair, hb] using ⟨h1, h2⟩

/-- `complete_maintenance` preserves the strengthened invariant. -/
theorem invS_complete_maintenance (s : MachineState) (h : MachineInvS s) :
    MachineInvS (complete_maintenance s).1 := by
  obtain ⟨h1, h2⟩ := h
  by_cases hb : s.status = MachineStatus.maintenance
  · cases hj : s.current_job with
    | none =>
      obtain ⟨hp, hst⟩ := h2 hj
      simp [complete_maintenance, hb, MachineInvS, hj, hp, hst]
    | some job =>
      have hbusy := (h1 (by simp [hj])).1
      rw [hb] at hbusy
      cases hbusy
  · simpa [complete_maintenance, hb] using ⟨h1, h2⟩

/-- Each message handler preserves the strengthened invariant. -/
theorem invS_process_one (now : ℚ) (s : MachineState) (m : MachineIn)
    (h : MachineInvS s) : MachineInvS (process_one now s m).1 := by
  cases m with
  | assign_job j => exact invS_handle_job_assignment j now s h
  | maintenance_schedule t => exact invS_handle_maintenance_schedule t now s h
  | emergency_stop r => exact invS_handle_emergency_stop s h
  | status_request => simpa [process_one] using h
  | other => simpa [process_one] using h

/-- Draining the inbox preserves the strengthened invariant. -/
theorem invS_process_messages (now : ℚ) (msgs : List MachineIn) (s : MachineState)
    (h : MachineInvS s) : MachineInvS (machine_process_messages now msgs s).1 := by
  induction msgs generalizing s with
  | nil => simpa [machine_process_messages] using h
  | cons m rest ih =>
    simpa [machine_process_messages] using ih _ (invS_process_one now s m h)

/-- The state component of `machine_step`. -/
theorem machine_step_state (msgs : List MachineIn) (now rand : ℚ) (rstat : Bool)
    (s : MachineState) :
    (machine_step msgs now rand rstat s).1 =
      (if (machine_process_messages now msgs s).1.status = MachineStatus.busy then
        (check_breakdown rand (execute_job now (machine_process_messages now msgs s).1).1).1
      else (machine_process_messages now msgs s).1) := by
  by_cases hb : (machine_process_messages now msgs s).1.status = MachineStatus.busy <;>
    simp [machine_step, hb]

/-- `step` preserves the strengthened invariant. -/
theorem invS_machine_step (msgs : List MachineIn) (now rand : ℚ) (rstat : Bool)
    (s : MachineState) (h : MachineInvS s) :
    MachineInvS (machine_step msgs now rand rstat s).1 := by
  rw [machine_step_state]
  have h1 := invS_process_messages now msgs s h
  by_cases hb : (machine_process_messages now msgs s).1.status = MachineStatus.busy
  · simpa [hb] using invS_check_breakdown rand _ (invS_execute_job now _ h1)
  · simpa [hb] using h1

/-- Claim C10 (confirmed): from any state satisfying the (strengthened)
job-slot invariant, every public machine operation — `step` (with any inbox,
clock and injected draws), `perform_repair` and `complete_maintenance` —
returns a state in which a stored job implies status Busy and any non-busy
status implies `job_progress = 0` and `job_start_time = None`; the
strengthened invariant is itself preserved, so the property holds on all
reachable states. -/
theorem C10_job_slot_invariant (s : MachineState) (msgs : List MachineIn) (now rand : ℚ)
    (rstat : Bool) (h : MachineInvS s) :
    (MachineInv (machine_step msgs now rand rstat s).1 ∧
      MachineInvS (machine_step msgs now rand rstat s).1) ∧
    (MachineInv (perform_repair s).1 ∧ MachineInvS (perform_repair s).1) ∧
    (MachineInv (complete_maintenance s).1 ∧ MachineInvS (complete_maintenance s).1) :=
  ⟨⟨invS_imp_inv _ (invS_machine_step msgs now rand rstat s h),
      invS_machine_step msgs now rand rstat s h⟩,
   ⟨invS_imp_inv _ (invS_perform_repair s h), invS_perform_repair s h⟩,
   ⟨invS_imp_inv _ (invS_complete_maintenance s h), invS_complete_maintenance s h⟩⟩

theorem C10_job_slot_invariant_witness :
    (MachineInv (machine_step [MachineIn.assign_job jA] 0 1 false machine_template).1 ∧
      MachineInvS (machine_step [MachineIn.assign_job jA] 0 1 false machine_template).1) ∧
    (MachineInv (perform_repair machine_template).1 ∧
      MachineInvS (perform_repair machine_template).1) ∧
    (MachineInv (complete_maintenance machine_template).1 ∧
      MachineInvS (complete_maintenance machine_template).1) :=
  C10_job_slot_invariant machine_template [MachineIn.assign_job jA] 0 1 false
    (by unfold MachineInvS; decide)
